import Mathlib

/-!
Verification of the subtitle_inserter core pipeline: a shallow embedding of
the canonical line model, the format parsers, the style serializer, the
FFmpeg command builder and the job supervisor, with theorems settling the
specification claims. Python floats are modelled as rationals, Python ints
as integers; fallible code returns Except or Option.
-/

set_option autoImplicit false

/-- Canonical subtitle line (core/subtitle_model.py, SubtitleLine).
Field stop models the Python field named end (a Lean keyword). -/
structure SubtitleLine where
  start : ℚ
  stop : ℚ
  text : String
  deriving DecidableEq, Repr

/-- One event of the underlying subtitle library model (pysubs2 SSAEvent):
start and stop are integer milliseconds, text is the raw event text. -/
structure SSAEvent where
  start : ℤ
  stop : ℤ
  text : String
  deriving DecidableEq, Repr

/-- Python str.replace with a one-character needle "\n" and replacement
"\N", expressed per character on the char list. -/
def pyReplaceNL (cs : List Char) : List Char :=
  cs.flatMap (fun c => if c = '\n' then ['\\', 'N'] else [c])

/-- The event-to-line conversion loop shared by SRTParser.parse and
ASSParser.parse (parsers.py lines 38-47 and 53-62): divide millisecond
times by 1000 and replace newlines by the ASS line-break marker. -/
def convertEvent (e : SSAEvent) : SubtitleLine :=
  { start := (e.start : ℚ) / 1000
    stop := (e.stop : ℚ) / 1000
    text := ⟨pyReplaceNL e.text.data⟩ }

/-- Failure mode of a pysubs2 load call: a strict-decode failure
(UnicodeDecodeError) or any other load failure. -/
inductive LoadError where
  | unicode
  | other (msg : String)
  deriving DecidableEq, Repr

/-- Abstract model of one subtitle file as seen through the external
subtitle library: utf8Load is the outcome of pysubs2.load with strict
utf-8, detectLoad the outcome of the chardet-detected retry
(pysubs2.load_from_memory with the detected encoding). -/
structure SubtitleFileModel where
  utf8Load : Except LoadError (List SSAEvent)
  detectLoad : Except LoadError (List SSAEvent)

/-- SRTParser.parse (parsers.py lines 30-47): try strict utf-8; on
UnicodeDecodeError retry with the chardet-detected encoding; then convert
every event. Other load errors propagate. -/
def srtParse (f : SubtitleFileModel) : Except LoadError (List SubtitleLine) :=
  match f.utf8Load with
  | .ok subs => .ok (subs.map convertEvent)
  | .error .unicode =>
      match f.detectLoad with
      | .ok subs => .ok (subs.map convertEvent)
      | .error e => .error e
  | .error e => .error e

/-- ASSParser.parse (parsers.py lines 50-62): a single pysubs2.load with
the default strict utf-8 encoding and no retry of any kind. -/
def assParse (f : SubtitleFileModel) : Except LoadError (List SubtitleLine) :=
  match f.utf8Load with
  | .ok subs => .ok (subs.map convertEvent)
  | .error e => .error e

/- ------------------------------------------------------------------
   CSV parser (parsers.py, CSVParser.parse)
   ------------------------------------------------------------------ -/

/-- A pandas cell value: numeric or textual. -/
inductive PyVal where
  | num (q : ℚ)
  | str (s : String)
  deriving DecidableEq, Repr

/-- A column identifier: integer position or textual label. -/
inductive ColId where
  | pos (i : ℤ)
  | name (s : String)
  deriving DecidableEq, Repr

/-- Whether pat is a literal prefix of cs. -/
def listStartsWith : List Char → List Char → Bool
  | [], _ => true
  | _ :: _, [] => false
  | p :: ps, c :: cs => p = c && listStartsWith ps cs

/-- Fuel-driven worker for the Python substring split (structural on the
fuel so that concrete evaluations reduce); every recursive call consumes
at least one character, so any fuel above the input length is exact. -/
def pySplitSubF (sep : List Char) : ℕ → List Char → List (List Char)
  | 0, cs => [cs]
  | fuel + 1, cs =>
    match sep, cs with
    | [], cs => [cs]
    | _ :: _, [] => [[]]
    | s0 :: srest, c :: rest =>
      if listStartsWith (s0 :: srest) (c :: rest) then
        [] :: pySplitSubF sep fuel (rest.drop srest.length)
      else
        match pySplitSubF sep fuel rest with
        | [] => [[c]]
        | p :: ps => (c :: p) :: ps

/-- Python s.split(sep) for a nonempty separator: split on every
non-overlapping occurrence, scanning left to right. -/
def pySplitSub (sep cs : List Char) : List (List Char) :=
  pySplitSubF sep (cs.length + 1) cs

/-- Python str.strip() with no argument: drop whitespace on both ends. -/
def pyStrip (cs : List Char) : List Char :=
  ((cs.dropWhile Char.isWhitespace).reverse.dropWhile Char.isWhitespace).reverse

/-- Python s.split()[0]: the first whitespace-separated token, or none
(IndexError) when the string holds no token at all. -/
def firstWsToken? (cs : List Char) : Option (List Char) :=
  match cs.dropWhile Char.isWhitespace with
  | [] => none
  | c :: rest => some ((c :: rest).takeWhile (fun x => !x.isWhitespace))

/-- Digit-run parse: the value of a nonempty all-digit char list. -/
def pyFloatDigits : List Char → Option ℕ
  | [] => none
  | cs => if cs.all Char.isDigit then
      some (cs.foldl (fun acc c => 10 * acc + (c.toNat - 48)) 0)
    else none

/-- Decimal char list to rational, Python float(str) restricted to the
plain sign/digits/point/digits forms that occur in this pipeline
(leading and trailing whitespace is stripped as Python does). -/
def pyFloatChars? (s : List Char) : Option ℚ :=
  let cs := pyStrip s
  let core : List Char → Option ℚ := fun cs =>
    match pySplitSub ['.'] cs with
    | [ip] => (pyFloatDigits ip).map (fun n => (n : ℚ))
    | [ip, fp] =>
        match ip, fp with
        | [], [] => none
        | [], _ => (pyFloatDigits fp).map (fun n => (n : ℚ) / 10 ^ fp.length)
        | _, [] => (pyFloatDigits ip).map (fun n => (n : ℚ))
        | _, _ =>
            match pyFloatDigits ip, pyFloatDigits fp with
            | some i, some f => some ((i : ℚ) + (f : ℚ) / 10 ^ fp.length)
            | _, _ => none
    | _ => none
  match cs with
  | '-' :: rest => (core rest).map (fun q => -q)
  | '+' :: rest => core rest
  | _ => core cs

/-- Python float(str) on a string. -/
def pyFloat? (s : String) : Option ℚ := pyFloatChars? s.data

/-- Python int(str) on a char list: optional sign then a nonempty digit
run, with surrounding whitespace stripped. -/
def pyIntChars? (s : List Char) : Option ℤ :=
  match pyStrip s with
  | '-' :: rest => (pyFloatDigits rest).map (fun n => -(n : ℤ))
  | '+' :: rest => (pyFloatDigits rest).map (fun n => (n : ℤ))
  | cs => (pyFloatDigits cs).map (fun n => (n : ℤ))

/-- Python int(str) on a string. -/
def pyInt? (s : String) : Option ℤ := pyIntChars? s.data

/-- float() applied to a pandas cell. -/
def pyFloatOfVal : PyVal → Option ℚ
  | .num q => some q
  | .str s => pyFloat? s

/-- str() applied to a pandas cell (textual cells pass through; numeric
rendering is not exercised by any claim). -/
def pyStrOfVal : PyVal → String
  | .num q => toString q
  | .str s => s

/-- Series lookup row[col] on a string-labelled dataframe (as produced by
pd.read_csv with a header row): a textual key selects the matching label,
an integer key falls back to positional indexing. -/
def rowGet (cols : List String) (row : List PyVal) : ColId → Option PyVal
  | .name n => (cols.indexOf? n).bind row.get?
  | .pos i => if 0 ≤ i then row.get? i.toNat else none

/-- Membership test end_col in df.columns on a string-labelled dataframe:
an integer key is never among the textual labels. -/
def memColumns (cols : List String) : ColId → Bool
  | .name n => cols.contains n
  | .pos _ => false

/-- Time format selector of CSVParser.parse. -/
inductive TimeFormat where
  | seconds
  | frames
  deriving DecidableEq, Repr

/-- The local _time_to_sec closure (parsers.py lines 86-89): frames divide
by fps (failing like Python division on fps = 0), seconds pass through. -/
def timeToSec (fmt : TimeFormat) (fps : ℚ) (v : PyVal) : Option ℚ :=
  match fmt with
  | .frames => if fps = 0 then none else (pyFloatOfVal v).map (· / fps)
  | .seconds => pyFloatOfVal v

/-- One iteration of the row loop of CSVParser.parse (parsers.py lines
92-100): read and convert start, read end only when end_col was supplied
and occurs among the column labels, default the end to start + 3 when it
is absent or not after start, and read the text cell. -/
def parseRow (cols : List String) (startCol textCol : ColId) (endCol : Option ColId)
    (fps : ℚ) (fmt : TimeFormat) (row : List PyVal) : Except String SubtitleLine :=
  match rowGet cols row startCol with
  | none => .error "KeyError: start column"
  | some sv =>
    match timeToSec fmt fps sv with
    | none => .error "ValueError: start value"
    | some start =>
      let endRes : Except String (Option ℚ) :=
        match endCol with
        | none => .ok none
        | some c =>
          if memColumns cols c then
            match rowGet cols row c with
            | none => .error "KeyError: end column"
            | some ev =>
              match timeToSec fmt fps ev with
              | none => .error "ValueError: end value"
              | some e => .ok (some e)
          else .ok none
      match endRes with
      | .error e => .error e
      | .ok endOpt =>
        let e : ℚ :=
          match endOpt with
          | some e => if e ≤ start then start + 3 else e
          | none => start + 3
        match rowGet cols row textCol with
        | none => .error "KeyError: text column"
        | some tv => .ok { start := start, stop := e, text := pyStrOfVal tv }

/-- The accumulating for-loop over dataframe rows, with Python exception
propagation made explicit. -/
def mapRows {α β : Type} (f : α → Except String β) : List α → Except String (List β)
  | [] => .ok []
  | a :: as =>
    match f a with
    | .error e => .error e
    | .ok b =>
      match mapRows f as with
      | .error e => .error e
      | .ok bs => .ok (b :: bs)

/-- CSVParser.parse (parsers.py lines 68-101) over an already-decoded
string-labelled dataframe. -/
def csvParse (cols : List String) (rows : List (List PyVal))
    (startCol textCol : ColId) (endCol : Option ColId)
    (fps : ℚ) (fmt : TimeFormat) : Except String (List SubtitleLine) :=
  mapRows (parseRow cols startCol textCol endCol fps fmt) rows

/- ------------------------------------------------------------------
   FFmpeg command builder (core/ffmpeg_builder.py)
   ------------------------------------------------------------------ -/

/-- Python "x or default" on an optional int: None and 0 are falsy. -/
def pyOrI (o : Option ℤ) (d : ℤ) : ℤ :=
  match o with
  | none => d
  | some n => if n = 0 then d else n

/-- Python "x or default" on an optional string: None and "" are falsy. -/
def pyOrS (o : Option String) (d : String) : String :=
  match o with
  | none => d
  | some s => if s = "" then d else s

/-- Python truthiness filter on an optional string used by the walrus
conditionals of _build_force_style. -/
def truthyS (o : Option String) : Option String :=
  match o with
  | none => none
  | some s => if s = "" then none else some s

/-- Python truthiness filter on an optional int. -/
def truthyI (o : Option ℤ) : Option ℤ :=
  match o with
  | none => none
  | some n => if n = 0 then none else some n

/-- First replace of _escape_path: every backslash becomes two. -/
def replaceBackslash : List Char → List Char
  | [] => []
  | c :: rest =>
    if c = '\\' then '\\' :: '\\' :: replaceBackslash rest
    else c :: replaceBackslash rest

/-- Second replace of _escape_path: every colon gets a backslash escape. -/
def replaceColon : List Char → List Char
  | [] => []
  | c :: rest =>
    if c = ':' then '\\' :: ':' :: replaceColon rest
    else c :: replaceColon rest

/-- FFmpegCommandBuilder._escape_path (ffmpeg_builder.py lines 78-85) on
the forward-slash (as_posix) form of the path: backslash-escape every
backslash, then backslash-escape every colon. -/
def escapeChars (cs : List Char) : List Char :=
  replaceColon (replaceBackslash cs)

/-- String wrapper of escapeChars. -/
def escapePath (s : String) : String :=
  ⟨escapeChars s.data⟩

/-- Python str.lstrip with needle "#": drop every leading hash. -/
def pyLstripHash (s : String) : List Char :=
  s.data.dropWhile (fun c => c == '#')

/-- Python slice s[a:b] on a char list. -/
def pySlice (cs : List Char) (a b : ℕ) : List Char :=
  (cs.drop a).take (b - a)

/-- The hex_to_ass closure inside _build_force_style (ffmpeg_builder.py
lines 98-103): a 6-hex-digit color becomes alpha-0 BGR, anything else
returns None and the caller omits the field. -/
def hexToAssFs (col : String) : Option String :=
  let c := pyLstripHash col
  if c.length = 6 then
    some ⟨"&H00".data ++ pySlice c 4 6 ++ pySlice c 2 4 ++ pySlice c 0 2⟩
  else none

/-- The font block of the settings store consumed by _build_force_style
and the CLI serializer; every field is optional because dict.get on a
missing key yields None (the two consumers apply different defaults). -/
structure FontConfig where
  family : Option String
  size : Option ℤ
  color : Option String
  outlineColor : Option String
  outlineWidth : Option ℤ
  bold : Option Bool
  shadow : Option Bool
  marginV : Option ℤ
  deriving DecidableEq, Repr

/-- One optional color entry of the force-style parts list: appended only
when the configured value is truthy and converts. -/
def colorPart (key : String) (col : Option String) : List String :=
  match truthyS col with
  | none => []
  | some c =>
    match hexToAssFs c with
    | none => []
    | some v => [key ++ "=" ++ v]

/-- FFmpegCommandBuilder._build_force_style (ffmpeg_builder.py lines
87-121): none models an empty font configuration block (falsy dict). -/
def buildForceStyle (cfg? : Option FontConfig) : Option String :=
  match cfg? with
  | none => none
  | some cfg =>
    let parts : List String :=
      (match truthyS cfg.family with
        | some fam => ["FontName=" ++ fam]
        | none => []) ++
      (match truthyI cfg.size with
        | some sz => ["FontSize=" ++ toString sz]
        | none => []) ++
      colorPart "PrimaryColour" cfg.color ++
      colorPart "OutlineColour" cfg.outlineColor ++
      (match truthyI cfg.outlineWidth with
        | some w => ["Outline=" ++ toString w]
        | none => []) ++
      (if cfg.bold.getD false then ["Bold=1"] else []) ++
      (if cfg.shadow.getD false then ["Shadow=1"] else ["Shadow=0"])
    if parts = [] then none else some (String.intercalate "," parts)

/-- The subtitles filter expression appended to vf_parts
(ffmpeg_builder.py lines 48-54): escaped artifact path, with the
force_style parameter when the style string is present. -/
def vfToken (sp : String) (fontCfg : Option FontConfig) : String :=
  match buildForceStyle fontCfg with
  | some styleStr =>
      "subtitles=\x27" ++ escapePath sp ++ "\x27:force_style=\x27" ++ styleStr ++ "\x27"
  | none => "subtitles=\x27" ++ escapePath sp ++ "\x27"

/-- FFmpegCommandBuilder.build (ffmpeg_builder.py lines 40-73). The
required video and output paths are taken as plain arguments (the source
raises ValueError when either is missing); the font configuration read
from the settings store by _build_force_style is passed in explicitly. -/
def build (ffmpegPath video : String) (subs : Option String) (output : String)
    (codecCopy : Bool) (extraOpts : List String) (crf : Option ℤ)
    (preset : Option String) (fontCfg : Option FontConfig) : List String :=
  let vfParts : List String :=
    match subs with
    | none => []
    | some sp => [vfToken sp fontCfg]
  let cmd := [ffmpegPath, "-y", "-i", video]
  let cmd := cmd ++ (if vfParts.isEmpty then [] else ["-vf", String.intercalate "," vfParts])
  let cmd := cmd ++
    (if codecCopy && vfParts.isEmpty then
      ["-c:v", "copy", "-c:a", "copy"]
    else
      ["-c:v", "libx264", "-crf", toString (pyOrI crf 23),
       "-preset", pyOrS preset "veryfast", "-c:a", "aac"])
  cmd ++ extraOpts ++ [output]

/-- Whether pat occurs as a contiguous run of tokens in l. -/
def hasRun (pat : List String) : List String → Bool
  | [] => pat.isEmpty
  | a :: rest => (pat.isPrefixOf (a :: rest)) || hasRun pat rest

/- ------------------------------------------------------------------
   Job supervisor (core/job_runner.py)
   ------------------------------------------------------------------ -/

/-- An asynchronous event emitted by JobRunner: progressChanged,
errorOccurred, or the terminal finished signal. -/
inductive JobEvent where
  | progress (ratio : ℚ)
  | error (msg : String)
  | terminal (code : ℤ)
  deriving DecidableEq, Repr

/-- Whether an event is the terminal finished signal. -/
def JobEvent.isTerminal : JobEvent → Bool
  | .terminal _ => true
  | _ => false

/-- The time-token extraction of JobRunner._parse_progress (job_runner.py
lines 91-97): the guard "time=" in line, then
line.split("time=")[1].split()[0].split(":") unpacked into exactly three
parts fed to int, int and float; any failure is swallowed. -/
def parseTimeToken (line : String) : Option ℚ :=
  match pySplitSub "time=".data line.data with
  | _ :: seg :: _ =>
    match firstWsToken? seg with
    | none => none
    | some tp =>
      match pySplitSub [':'] tp with
      | [h, m, s] =>
        match pyIntChars? h, pyIntChars? m, pyFloatChars? s with
        | some hi, some mi, some sv => some ((hi : ℚ) * 3600 + (mi : ℚ) * 60 + sv)
        | _, _, _ => none
      | _ => none
  | _ => none

/-- JobRunner._parse_progress (job_runner.py lines 87-102): no event while
the duration is unknown; otherwise one progressChanged per parsable time
token, with the Python ZeroDivisionError on a zero duration swallowed. -/
def parseProgress (dur? : Option ℚ) (line : String) : List JobEvent :=
  match dur? with
  | none => []
  | some d =>
    match parseTimeToken line with
    | none => []
    | some sec => if d = 0 then [] else [.progress (min (sec / d) 1)]

/-- JobRunner._parse_duration_line (job_runner.py lines 104-115): requires
"Duration:" in the line, takes the segment after it up to the first comma,
strips it and parses it as H:MM:SS.cc; any failure yields None. -/
def parseDurationLine (line : String) : Option ℚ :=
  match pySplitSub "Duration:".data line.data with
  | _ :: seg :: _ =>
    match pySplitSub [','] seg with
    | p :: _ =>
      match pySplitSub [':'] (pyStrip p) with
      | [h, m, s] =>
        match pyIntChars? h, pyIntChars? m, pyFloatChars? s with
        | some hi, some mi, some sv => some ((hi : ℚ) * 3600 + (mi : ℚ) * 60 + sv)
        | _, _, _ => none
      | _ => none
    | [] => none
  | _ => none

/-- One iteration of the stderr loop of JobRunner._run (job_runner.py
lines 65-69): while the duration is unknown a duration announcement is
looked for (an absent or malformed announcement leaves it unknown, which
coincides with assigning the None parse result), then _parse_progress runs
against the updated duration. -/
def processLine (dur? : Option ℚ) (line : String) : Option ℚ × List JobEvent :=
  let dur2 :=
    match dur? with
    | some d => some d
    | none => parseDurationLine line
  (dur2, parseProgress dur2 line)

/-- The whole stderr loop: thread the duration state and concatenate the
emitted events. -/
def runLines (dur? : Option ℚ) : List String → Option ℚ × List JobEvent
  | [] => (dur?, [])
  | l :: ls =>
    let step := processLine dur? l
    let rest := runLines step.1 ls
    (rest.1, step.2 ++ rest.2)

/-- Outcome of the subprocess interaction inside JobRunner._run: the spawn
may raise, the stderr pipe may be missing (the raised RuntimeError), or
the process runs and yields its stderr lines and return code. -/
inductive SpawnResult where
  | spawnFail (msg : String)
  | noStderr
  | ok (lines : List String) (rc : ℤ)

/-- JobRunner._run (job_runner.py lines 50-84): on a normal run the stderr
lines are processed and a single finished signal carries the return code;
any exception (spawn failure or missing stderr pipe) produces one
errorOccurred followed by finished with the sentinel code -1. -/
def runJob (dur? : Option ℚ) (r : SpawnResult) : List JobEvent :=
  match r with
  | .spawnFail msg => [.error msg, .terminal (-1)]
  | .noStderr => [.error "stderr pipe を取得できませんでした", .terminal (-1)]
  | .ok lines rc => (runLines dur? lines).2 ++ [.terminal rc]

/- ------------------------------------------------------------------
   CLI style serializer (cli.py, _write_temp_ass) and the styled-document
   re-parse used by the round-trip property
   ------------------------------------------------------------------ -/

/-- Decimal digit character of n < 10. -/
def digitChar (n : ℕ) : Char := Char.ofNat (48 + n)

/-- Decimal rendering of a natural number (Python str/format of an int). -/
def natToChars (n : ℕ) : List Char :=
  if _h : n < 10 then [digitChar n]
  else natToChars (n / 10) ++ [digitChar (n % 10)]
  decreasing_by exact Nat.div_lt_self (by omega) (by omega)

/-- Decimal rendering of an integer. -/
def intToChars (i : ℤ) : List Char :=
  if i < 0 then '-' :: natToChars i.natAbs else natToChars i.toNat

/-- Python format {n:02d} for the nonnegative two-digit fields. -/
def pad2 (n : ℕ) : List Char :=
  if n < 10 then '0' :: natToChars n else natToChars n

/-- Python float modulo: q % m = q - m * floor(q / m). -/
def pymod (q m : ℚ) : ℚ := q - m * ⌊q / m⌋

/-- The ts closure of SubtitleLine.to_ass_dialogue (subtitle_model.py
lines 14-19): hours unpadded, minutes and integer seconds two-digit,
truncated centiseconds two-digit. The int() truncations are floors
because the Python modulo results are nonnegative. -/
def tsChars (sec : ℚ) : List Char :=
  let h : ℤ := ⌊sec / 3600⌋
  let m : ℤ := ⌊pymod sec 3600 / 60⌋
  let s : ℚ := pymod sec 60
  let ss : ℤ := ⌊s⌋
  let cs : ℤ := ⌊(s - (ss : ℚ)) * 100⌋
  intToChars h ++ ':' :: pad2 m.toNat ++ ':' :: pad2 ss.toNat ++ '.' :: pad2 cs.toNat

/-- SubtitleLine.to_ass_dialogue (subtitle_model.py lines 12-23). -/
def toAssDialogue (l : SubtitleLine) : List Char :=
  "Dialogue: 0,".data ++ tsChars l.start ++ ',' :: tsChars l.stop
    ++ ",Default,,0,0,0,,".data ++ l.text.data

/-- The hex_to_ass closure of _write_temp_ass (cli.py lines 176-181):
6-hex-digit colors become alpha-0 BGR, anything else falls back to opaque
white. -/
def hexToAssCli (col : String) : String :=
  let c := pyLstripHash col
  if c.length = 6 then
    ⟨"&H00".data ++ pySlice c 4 6 ++ pySlice c 2 4 ++ pySlice c 0 2⟩
  else "&H00FFFFFF"

/-- The header of _write_temp_ass (cli.py lines 186-193) as its list of
lines; the written file is the newline-join of headerLines followed by
the dialogue lines (the header literal ends in a newline). Configuration
strings are assumed newline-free for the line decomposition to match. -/
def headerLines (cfg : FontConfig) : List (List Char) :=
  let fontname := cfg.family.getD "Arial"
  let fontsize := cfg.size.getD 32
  let primaryAss := hexToAssCli (cfg.color.getD "#ffffff")
  let outlineAss := hexToAssCli (cfg.outlineColor.getD "#000000")
  let outlineWidth := cfg.outlineWidth.getD 3
  let shadowVal : ℤ := if cfg.shadow.getD true then 3 else 0
  let boldFlag : ℤ := if cfg.bold.getD false then -1 else 0
  let marginV := cfg.marginV.getD 10
  [ "[Script Info]".data,
    "ScriptType: v4.00+".data,
    "Collisions: Normal".data,
    "PlayResX: 1920".data,
    "PlayResY: 1080".data,
    "Timer: 100.0000".data,
    [],
    "[V4+ Styles]".data,
    ("Format: Name, Fontname, Fontsize, PrimaryColour, SecondaryColour, "
      ++ "OutlineColour, BackColour, Bold, Italic, Underline, StrikeOut, "
      ++ "ScaleX, ScaleY, Spacing, Angle, BorderStyle, Outline, Shadow, "
      ++ "Alignment, MarginL, MarginR, MarginV, Encoding").data,
    ("Style: Default,".data ++ (fontname.data ++ ',' :: intToChars fontsize
      ++ ',' :: primaryAss.data ++ ",&H000000FF,".data ++ outlineAss.data
      ++ ",&H64000000,".data ++ intToChars boldFlag
      ++ ",0,0,0,100,100,0,0,1,".data ++ intToChars outlineWidth
      ++ ',' :: intToChars shadowVal ++ ",2,10,10,".data
      ++ intToChars marginV ++ ",1".data)),
    [],
    "[Events]".data,
    "Format: Layer, Start, End, Style, Name, MarginL, MarginR, MarginV, Effect, Text".data ]

/-- _write_temp_ass (cli.py lines 162-199), with the produced document
modelled as its list of lines. -/
def writeTempAssLines (cfg : FontConfig) (lines : List SubtitleLine) : List (List Char) :=
  headerLines cfg ++ lines.map toAssDialogue

/-- Python-like split of a char list on a separator with a maximum number
of splits; the remainder after the last split is kept whole. -/
def splitLimit (sep : Char) : ℕ → List Char → List (List Char)
  | 0, cs => [cs]
  | n + 1, cs =>
    let first := cs.takeWhile (fun c => c != sep)
    match cs.dropWhile (fun c => c != sep) with
    | [] => [first]
    | _ :: tail => first :: splitLimit sep n tail

/-- Unlimited split on a separator character. -/
def splitAllC (sep : Char) (cs : List Char) : List (List Char) :=
  splitLimit sep cs.length cs

/-- Modelled from the spec: the external subtitle library (pysubs2, not
part of this repository) reads an ASS timestamp of the contractual shape
H:MM:SS.cc into integer milliseconds. -/
def parseTimestampMs (cs : List Char) : Option ℤ :=
  match splitAllC ':' cs with
  | [hh, mm, rest] =>
    match splitAllC '.' rest with
    | [ss, cc] =>
      match pyFloatDigits hh, pyFloatDigits mm, pyFloatDigits ss, pyFloatDigits cc with
      | some h, some m, some s, some c =>
          some ((((h : ℤ) * 60 + m) * 60 + s) * 1000 + (c : ℤ) * 10)
      | _, _, _, _ => none
    | _ => none
  | _ => none

/-- Modelled from the spec: the external subtitle library reads one event
per line of the form Dialogue: followed by ten comma-separated fields
(the tenth, the text, keeps any further commas), with fields two and
three parsed as timestamps. -/
def parseDialogueLine (cs : List Char) : Option SSAEvent :=
  if cs.take 10 = "Dialogue: ".data then
    match splitLimit ',' 9 (cs.drop 10) with
    | [_, st, en, _, _, _, _, _, _, txt] =>
      match parseTimestampMs st, parseTimestampMs en with
      | some a, some b => some { start := a, stop := b, text := ⟨txt⟩ }
      | _, _ => none
    | _ => none
  else none

/-- Modelled from the spec: loading a styled document (given as its line
list) collects its dialogue events in order; the ASSParser conversion
loop (parsers.py lines 53-62) then maps convertEvent over them. -/
def assParseDoc (doc : List (List Char)) : List SubtitleLine :=
  (doc.filterMap parseDialogueLine).map convertEvent

/-- Truncation of a rational number of seconds to whole centiseconds:
the value actually carried by a serialized H:MM:SS.cc timestamp. -/
def centitrunc (q : ℚ) : ℚ := (⌊q * 100⌋ : ℚ) / 100

/-- A char list in which every colon and every backslash is escaped: it
decomposes into plain characters (neither backslash nor colon), escaped
backslashes and escaped colons. -/
inductive WellEscaped : List Char → Prop where
  | nil : WellEscaped []
  | plain {c : Char} {rest : List Char} (h1 : c ≠ '\\') (h2 : c ≠ ':')
      (h : WellEscaped rest) : WellEscaped (c :: rest)
  | escBack {rest : List Char} (h : WellEscaped rest) :
      WellEscaped ('\\' :: '\\' :: rest)
  | escColon {rest : List Char} (h : WellEscaped rest) :
      WellEscaped ('\\' :: ':' :: rest)

/- ==================================================================
   Theorems
   ================================================================== -/

theorem replaceColon_backslash (l : List Char) :
    replaceColon ('\\' :: l) = '\\' :: replaceColon l := by
  simp [replaceColon]

theorem escapeChars_wellEscaped (cs : List Char) : WellEscaped (escapeChars cs) := by
  induction cs with
  | nil => exact WellEscaped.nil
  | cons c rest ih =>
    by_cases hb : c = '\\'
    · subst hb
      show WellEscaped (replaceColon (replaceBackslash ('\\' :: rest)))
      rw [show replaceBackslash ('\\' :: rest) = '\\' :: '\\' :: replaceBackslash rest by
        simp [replaceBackslash]]
      rw [replaceColon_backslash, replaceColon_backslash]
      exact WellEscaped.escBack ih
    · by_cases hc : c = ':'
      · subst hc
        show WellEscaped (replaceColon (replaceBackslash (':' :: rest)))
        rw [show replaceBackslash (':' :: rest) = ':' :: replaceBackslash rest by
          simp [replaceBackslash]]
        rw [show replaceColon (':' :: replaceBackslash rest)
            = '\\' :: ':' :: replaceColon (replaceBackslash rest) by simp [replaceColon]]
        exact WellEscaped.escColon ih
      · show WellEscaped (replaceColon (replaceBackslash (c :: rest)))
        rw [show replaceBackslash (c :: rest) = c :: replaceBackslash rest by
          simp [replaceBackslash, hb]]
        rw [show replaceColon (c :: replaceBackslash rest)
            = c :: replaceColon (replaceBackslash rest) by simp [replaceColon, hc]]
        exact WellEscaped.plain hb hc ih

/-- C8: the filter-path escape converts the forward-slash form of the
path by backslash-escaping every backslash and then every colon, so the
result contains no bare colon and no lone backslash; in particular the
Windows-style example path escapes with every colon and backslash
escaped (shown both for its forward-slash form and for a raw
backslash-bearing name). -/
theorem c8_escape_path_wellEscaped :
    (∀ cs : List Char, WellEscaped (escapeChars cs)) ∧
    escapePath "C:/videos/clip.mp4" = "C\\:/videos/clip.mp4" ∧
    escapePath "C:\\videos\\clip.mp4" = "C\\:\\\\videos\\\\clip.mp4" := by
  refine ⟨escapeChars_wellEscaped, ?_, ?_⟩ <;> decide

theorem intercalate_single (x : String) : String.intercalate "," [x] = x := by
  simp [String.intercalate, String.intercalate.go]

theorem build_copy_eq (f v out : String) (crf : Option ℤ) (preset : Option String)
    (cfg : Option FontConfig) :
    build f v none out true [] crf preset cfg
      = [f, "-y", "-i", v, "-c:v", "copy", "-c:a", "copy", out] := rfl

theorem build_filter_eq (f v out sp : String) (cc : Bool) (crf : Option ℤ)
    (preset : Option String) (cfg : Option FontConfig) :
    build f v (some sp) out cc [] crf preset cfg
      = [f, "-y", "-i", v, "-vf", vfToken sp cfg, "-c:v", "libx264", "-crf",
         toString (pyOrI crf 23), "-preset", pyOrS preset "veryfast", "-c:a", "aac", out] := by
  simp [build, intercalate_single]

theorem build_noCopy_eq (f v out : String) (crf : Option ℤ) (preset : Option String)
    (cfg : Option FontConfig) :
    build f v none out false [] crf preset cfg
      = [f, "-y", "-i", v, "-c:v", "libx264", "-crf", toString (pyOrI crf 23),
         "-preset", pyOrS preset "veryfast", "-c:a", "aac", out] := rfl

theorem hasRun_cons {pat : List String} (a : String) {l : List String}
    (h : hasRun pat l = true) : hasRun pat (a :: l) = true := by
  simp [hasRun, h]

theorem hasRun_head {pat l : List String} (h : pat.isPrefixOf l = true) :
    hasRun pat l = true := by
  cases l with
  | nil =>
    cases pat with
    | nil => rfl
    | cons p ps => simp [List.isPrefixOf] at h
  | cons a rest => simp [hasRun, h]

theorem isPrefixOf_append_self {α : Type} [BEq α] [LawfulBEq α] (pat suf : List α) :
    pat.isPrefixOf (pat ++ suf) = true := by
  induction pat with
  | nil => cases suf <;> rfl
  | cons p ps ih => simp [List.isPrefixOf, ih]

theorem hasRun_append (pre pat suf : List String) :
    hasRun pat (pre ++ (pat ++ suf)) = true := by
  induction pre with
  | nil => exact hasRun_head (isPrefixOf_append_self pat suf)
  | cons a pre ih => exact hasRun_cons a ih

/-- C2: with codec copy preferred and no subtitle artifact the built
command carries the run -c:v copy -c:a copy and no -vf token (the
fixed tokens the builder inserts never include -vf; the caller-supplied
path strings are required not to collide with it), and with a subtitle
artifact present the command never contains the adjacent pair
-c:v copy. -/
theorem c2_codec_copy_decision :
    ∀ (f v out : String) (crf : Option ℤ) (preset : Option String)
      (cfg : Option FontConfig),
      (f ≠ "-vf" → v ≠ "-vf" → out ≠ "-vf" →
        hasRun ["-c:v", "copy", "-c:a", "copy"]
            (build f v none out true [] crf preset cfg) = true ∧
          "-vf" ∉ build f v none out true [] crf preset cfg) ∧
      ∀ (sp : String) (cc : Bool),
        hasRun ["-c:v", "copy"] (build f v (some sp) out cc [] crf preset cfg) = false := by
  intro f v out crf preset cfg
  constructor
  · intro hf hv ho
    rw [build_copy_eq]
    constructor
    · exact hasRun_append [f, "-y", "-i", v] ["-c:v", "copy", "-c:a", "copy"] [out]
    · intro hmem
      simp only [List.mem_cons, List.not_mem_nil, or_false] at hmem
      rcases hmem with h | h | h | h | h | h | h | h | h
      exacts [hf h.symm, by simp at h, by simp at h, hv h.symm, by simp at h,
        by simp at h, by simp at h, by simp at h, ho h.symm]
  · intro sp cc
    rw [build_filter_eq]
    simp [hasRun, List.isPrefixOf]

/-- C2 witness at a concrete request. -/
theorem c2_codec_copy_decision_witness :
    hasRun ["-c:v", "copy", "-c:a", "copy"]
        (build "ffmpeg" "in.mp4" none "out.mp4" true [] none none none) = true ∧
      "-vf" ∉ build "ffmpeg" "in.mp4" none "out.mp4" true [] none none none :=
  (c2_codec_copy_decision "ffmpeg" "in.mp4" "out.mp4" none none none).1
    (by decide) (by decide) (by decide)

/-- C6 counterexample: with a subtitle artifact present (a re-encode) and
a requested crf of 0 the token after -crf is 23, not 0, and a requested
empty preset likewise yields veryfast. -/
theorem c6_crf_zero_counterexample :
    hasRun ["-crf", "23"]
        (build "ffmpeg" "in.mp4" (some "s.ass") "out.mp4" true [] (some 0) (some "") none)
        = true ∧
      hasRun ["-crf", "0"]
        (build "ffmpeg" "in.mp4" (some "s.ass") "out.mp4" true [] (some 0) (some "") none)
        = false ∧
      hasRun ["-preset", "veryfast"]
        (build "ffmpeg" "in.mp4" (some "s.ass") "out.mp4" true [] (some 0) (some "") none)
        = true := by
  refine ⟨?_, ?_, ?_⟩ <;> decide

theorem crfPreset_all (pre : List String) (out : String) (crf : Option ℤ)
    (preset : Option String) :
    (∀ n : ℤ, crf = some n → 1 ≤ n → n ≤ 51 →
        hasRun ["-crf", toString n]
          (pre ++ ["-crf", toString (pyOrI crf 23),
            "-preset", pyOrS preset "veryfast", "-c:a", "aac", out]) = true) ∧
      ((crf = none ∨ crf = some 0) →
        hasRun ["-crf", "23"]
          (pre ++ ["-crf", toString (pyOrI crf 23),
            "-preset", pyOrS preset "veryfast", "-c:a", "aac", out]) = true) ∧
      (∀ p : String, preset = some p → p ≠ "" →
        hasRun ["-preset", p]
          (pre ++ ["-crf", toString (pyOrI crf 23),
            "-preset", pyOrS preset "veryfast", "-c:a", "aac", out]) = true) ∧
      ((preset = none ∨ preset = some "") →
        hasRun ["-preset", "veryfast"]
          (pre ++ ["-crf", toString (pyOrI crf 23),
            "-preset", pyOrS preset "veryfast", "-c:a", "aac", out]) = true) := by
  refine ⟨?_, ?_, ?_, ?_⟩
  · intro n hn h1 h51
    subst hn
    have hv : pyOrI (some n) 23 = n := by
      simp only [pyOrI, if_neg (show n ≠ 0 by omega)]
    rw [hv]
    simpa using hasRun_append pre ["-crf", toString n]
      ["-preset", pyOrS preset "veryfast", "-c:a", "aac", out]
  · intro h0
    have hv : toString (pyOrI crf 23) = "23" := by
      rcases h0 with h | h <;> subst h <;> rfl
    rw [hv]
    simpa using hasRun_append pre ["-crf", "23"]
      ["-preset", pyOrS preset "veryfast", "-c:a", "aac", out]
  · intro p hp hpne
    subst hp
    have hv : pyOrS (some p) "veryfast" = p := by
      simp only [pyOrS, if_neg hpne]
    rw [hv]
    simpa using hasRun_append (pre ++ ["-crf", toString (pyOrI crf 23)])
      ["-preset", p] ["-c:a", "aac", out]
  · intro h0
    have hv : pyOrS preset "veryfast" = "veryfast" := by
      rcases h0 with h | h <;> subst h <;> rfl
    rw [hv]
    simpa using hasRun_append (pre ++ ["-crf", toString (pyOrI crf 23)])
      ["-preset", "veryfast"] ["-c:a", "aac", out]

/-- C6 (amended): when the builder re-encodes (artifact present or copy
declined), the token after -crf is the decimal of the requested crf for
every requested value in [1, 51] and is 23 when the crf is absent or 0
(Python-falsy zero is treated as absent), and the token after -preset is
the requested preset when nonempty and veryfast when the preset is
absent or empty. -/
theorem c6_crf_preset_tokens :
    ∀ (f v out : String) (subs : Option String) (cc : Bool)
      (crf : Option ℤ) (preset : Option String) (cfg : Option FontConfig),
      (subs ≠ none ∨ cc = false) →
      (∀ n : ℤ, crf = some n → 1 ≤ n → n ≤ 51 →
          hasRun ["-crf", toString n] (build f v subs out cc [] crf preset cfg) = true) ∧
        ((crf = none ∨ crf = some 0) →
          hasRun ["-crf", "23"] (build f v subs out cc [] crf preset cfg) = true) ∧
        (∀ p : String, preset = some p → p ≠ "" →
          hasRun ["-preset", p] (build f v subs out cc [] crf preset cfg) = true) ∧
        ((preset = none ∨ preset = some "") →
          hasRun ["-preset", "veryfast"] (build f v subs out cc [] crf preset cfg) = true) := by
  intro f v out subs cc crf preset cfg hre
  cases subs with
  | some sp =>
    rw [build_filter_eq]
    exact crfPreset_all [f, "-y", "-i", v, "-vf", vfToken sp cfg, "-c:v", "libx264"]
      out crf preset
  | none =>
    have hcc : cc = false := by
      rcases hre with h | h
      · exact absurd rfl h
      · exact h
    subst hcc
    rw [build_noCopy_eq]
    exact crfPreset_all [f, "-y", "-i", v, "-c:v", "libx264"] out crf preset

/-- C6 witness at a concrete re-encoding request. -/
theorem c6_crf_preset_tokens_witness :
    hasRun ["-crf", toString (17 : ℤ)]
      (build "ffmpeg" "in.mp4" (some "s.ass") "out.mp4" true [] (some 17) (some "fast") none)
      = true :=
  ((c6_crf_preset_tokens "ffmpeg" "in.mp4" "out.mp4" (some "s.ass") true
      (some 17) (some "fast") none (Or.inl (by decide))).1) 17 rfl (by decide) (by decide)

theorem dropWhileHash_cons {a : Char} (rest : List Char) (ha : a ≠ '#') :
    (a :: rest).dropWhile (fun c => c == '#') = a :: rest := by
  simp [List.dropWhile_cons, ha]

/-- C7 counterexample: on the malformed color zzz the inline
style-override builder returns no conversion at all and omits the color
field from the produced override string (no opaque-white fallback there),
while the full-document serializer does fall back to white. -/
theorem c7_malformed_color_counterexample :
    hexToAssFs "zzz" = none ∧
      buildForceStyle (some ⟨none, none, some "zzz", none, none, none, none, none⟩)
        = some "Shadow=0" ∧
      hexToAssCli "zzz" = "&H00FFFFFF" := by
  refine ⟨?_, ?_, ?_⟩ <;> decide

/-- C7 (amended): for every 6-hex-digit RGB color both converters produce
&H00BBGGRR (alpha 00, channel bytes reversed), #FFCC00 converts to
&H0000CCFF in both, and on malformed (non-6-digit) input the
full-document serializer falls back to opaque white while the inline
style-override builder yields no conversion (the field is omitted). -/
theorem c7_color_conversion :
    (∀ a b c d e g : Char, a ≠ '#' →
        hexToAssFs ⟨[a, b, c, d, e, g]⟩ = some ⟨"&H00".data ++ [e, g, c, d, a, b]⟩ ∧
          hexToAssFs ⟨'#' :: [a, b, c, d, e, g]⟩
            = some ⟨"&H00".data ++ [e, g, c, d, a, b]⟩ ∧
          hexToAssCli ⟨[a, b, c, d, e, g]⟩ = ⟨"&H00".data ++ [e, g, c, d, a, b]⟩ ∧
          hexToAssCli ⟨'#' :: [a, b, c, d, e, g]⟩ = ⟨"&H00".data ++ [e, g, c, d, a, b]⟩) ∧
      hexToAssCli "#FFCC00" = "&H0000CCFF" ∧
      hexToAssFs "#FFCC00" = some "&H0000CCFF" ∧
      (∀ s : String, (pyLstripHash s).length ≠ 6 →
        hexToAssCli s = "&H00FFFFFF" ∧ hexToAssFs s = none) := by
  refine ⟨?_, by decide, by decide, ?_⟩
  · intro a b c d e g ha
    have hdrop : pyLstripHash ⟨[a, b, c, d, e, g]⟩ = [a, b, c, d, e, g] :=
      dropWhileHash_cons [b, c, d, e, g] ha
    have hdrop2 : pyLstripHash ⟨'#' :: [a, b, c, d, e, g]⟩ = [a, b, c, d, e, g] := by
      show ('#' :: [a, b, c, d, e, g]).dropWhile (fun c => c == '#')
        = [a, b, c, d, e, g]
      rw [List.dropWhile_cons]
      simp only [beq_self_eq_true, if_true]
      exact dropWhileHash_cons [b, c, d, e, g] ha
    refine ⟨?_, ?_, ?_, ?_⟩ <;>
      simp [hexToAssFs, hexToAssCli, hdrop, hdrop2, pySlice]
  · intro s hlen
    constructor
    · simp [hexToAssCli, if_neg hlen]
    · simp [hexToAssFs, if_neg hlen]

/-- C7 witness at the concrete example color. -/
theorem c7_color_conversion_witness :
    hexToAssFs ⟨['F', 'F', 'C', 'C', '0', '0']⟩
      = some ⟨"&H00".data ++ ['0', '0', 'C', 'C', 'F', 'F']⟩ :=
  (c7_color_conversion.1 'F' 'F' 'C' 'C' '0' '0' (by decide)).1

theorem mapRows_ok_forall {α β : Type} (f : α → Except String β) (P : β → Prop)
    (hf : ∀ a b, f a = .ok b → P b) :
    ∀ (rows : List α) (out : List β), mapRows f rows = .ok out → ∀ l ∈ out, P l := by
  intro rows
  induction rows with
  | nil =>
    intro out h l hl
    simp [mapRows] at h
    subst h
    simp at hl
  | cons a as ih =>
    intro out h l hl
    cases hfa : f a with
    | error e => simp [mapRows, hfa] at h
    | ok b =>
      cases hrest : mapRows f as with
      | error e => simp [mapRows, hfa, hrest] at h
      | ok bs =>
        simp [mapRows, hfa, hrest] at h
        subst h
        rcases List.mem_cons.mp hl with rfl | hmem
        · exact hf a l hfa
        · exact ih bs hrest l hmem

theorem parseRow_start_lt {cols : List String} {sc tc : ColId} {ec : Option ColId}
    {fps : ℚ} {fmt : TimeFormat} {row : List PyVal} {l : SubtitleLine}
    (h : parseRow cols sc tc ec fps fmt row = .ok l) : l.start < l.stop := by
  unfold parseRow at h
  repeat' split at h
  all_goals try cases h
  all_goals try simp_all
  all_goals split <;> linarith

theorem parseRow_end_default {cols : List String} {sc tc c : ColId} {fps : ℚ}
    {fmt : TimeFormat} {row : List PyVal} {l : SubtitleLine}
    (hmem : memColumns cols c = false)
    (h : parseRow cols sc tc (some c) fps fmt row = .ok l) : l.stop = l.start + 3 := by
  unfold parseRow at h
  repeat' split at h
  all_goals try cases h
  all_goals simp_all

/-- C10: when an end-time column identifier is supplied but does not
occur among the table's column labels (for example an integer position
against a textual header, as in the fixed CLI mapping), the end value is
silently ignored and every parsed row gets end = start + 3. -/
theorem c10_end_col_ignored :
    ∀ (cols : List String) (rows : List (List PyVal)) (sc tc c : ColId)
      (fps : ℚ) (fmt : TimeFormat) (lines : List SubtitleLine),
      memColumns cols c = false →
      csvParse cols rows sc tc (some c) fps fmt = .ok lines →
      ∀ l ∈ lines, l.stop = l.start + 3 := by
  intro cols rows sc tc c fps fmt lines hmem hparse
  exact mapRows_ok_forall _ _
    (fun row l h => parseRow_end_default hmem h) rows lines hparse

/-- C10 witness: the CLI mapping start_col=0, text_col=2, end_col=1
against a textual header ignores the end column of the row (1, 5, hello)
and yields end = start + 3. -/
theorem c10_end_col_ignored_witness :
    (SubtitleLine.mk 1 4 "hello").stop = (SubtitleLine.mk 1 4 "hello").start + 3 :=
  c10_end_col_ignored ["start_time", "end_time", "text"]
    [[.num 1, .num 5, .str "hello"]] (.pos 0) (.pos 2) (.pos 1) 30 .seconds
    [⟨1, 4, "hello"⟩] (by decide)
    (by simp [csvParse, mapRows, parseRow, rowGet, timeToSec, pyFloatOfVal, pyStrOfVal, memColumns]; norm_num)
    ⟨1, 4, "hello"⟩ (by simp)

/-- C1 counterexample: the SRT parser passes source times through
unchanged, so a source event with end below start yields a canonical
line violating end > start (no 3-second default is applied there). -/
theorem c1_end_after_start_counterexample :
    srtParse
        { utf8Load := .ok [{ start := 5000, stop := 4000, text := "hi" }],
          detectLoad := .error .unicode }
      = .ok [{ start := 5, stop := 4, text := "hi" }] ∧
      ¬ ((4 : ℚ) > 5) := by
  constructor
  · simp [srtParse, convertEvent, pyReplaceNL]
    norm_num
  · norm_num

/-- C1 (amended): the CSV parser guarantees end > start for every line
it returns (applying the 3-second default when the end is absent or not
after the start); the SRT and ASS parsers convert source times by
dividing by 1000 without adjustment, so their output satisfies
end > start exactly when the source event does. -/
theorem c1_end_after_start :
    (∀ (cols : List String) (rows : List (List PyVal)) (sc tc : ColId)
        (ec : Option ColId) (fps : ℚ) (fmt : TimeFormat) (lines : List SubtitleLine),
        csvParse cols rows sc tc ec fps fmt = .ok lines →
        ∀ l ∈ lines, l.start < l.stop) ∧
      (∀ e : SSAEvent, (convertEvent e).start < (convertEvent e).stop ↔ e.start < e.stop) ∧
      (∀ (f : SubtitleFileModel) (evs : List SSAEvent), f.utf8Load = .ok evs →
        srtParse f = .ok (evs.map convertEvent) ∧ assParse f = .ok (evs.map convertEvent)) := by
  refine ⟨?_, ?_, ?_⟩
  · intro cols rows sc tc ec fps fmt lines hparse
    exact mapRows_ok_forall _ _ (fun row l h => parseRow_start_lt h) rows lines hparse
  · intro e
    show (e.start : ℚ) / 1000 < (e.stop : ℚ) / 1000 ↔ e.start < e.stop
    rw [div_lt_div_iff_of_pos_right (by norm_num : (0:ℚ) < 1000)]
    exact Int.cast_lt
  · intro f evs hok
    constructor <;> simp [srtParse, assParse, hok]

/-- C1 witness at a concrete CSV parse. -/
theorem c1_end_after_start_witness :
    (SubtitleLine.mk 1 4 "hello").start < (SubtitleLine.mk 1 4 "hello").stop :=
  c1_end_after_start.1 ["start_time", "end_time", "text"]
    [[.num 1, .num 5, .str "hello"]] (.pos 0) (.pos 2) (some (.pos 1)) 30 .seconds
    [⟨1, 4, "hello"⟩]
    (by simp [csvParse, mapRows, parseRow, rowGet, timeToSec, pyFloatOfVal, pyStrOfVal, memColumns]; norm_num)
    ⟨1, 4, "hello"⟩ (by simp)

/-- C9 counterexample: on a file whose bytes fail strict UTF-8 decoding
but load under the detected encoding, the SRT parser succeeds via the
chardet retry while the ASS parser fails immediately with the decode
error — it performs no encoding detection at all. -/
theorem c9_encoding_retry_counterexample :
    srtParse { utf8Load := .error .unicode, detectLoad := .ok [⟨0, 1000, "x"⟩] }
      = .ok [{ start := 0, stop := 1, text := "x" }] ∧
      assParse { utf8Load := .error .unicode, detectLoad := .ok [⟨0, 1000, "x"⟩] }
        = .error .unicode := by
  constructor
  · simp [srtParse, convertEvent, pyReplaceNL]
  · simp [assParse]

/-- C9 (amended): on a strict-UTF-8 decode failure the SRT parser retries
with the chardet-detected encoding before failing, while the ASS parser
propagates the decode failure without any retry. -/
theorem c9_encoding_retry :
    (∀ f : SubtitleFileModel, f.utf8Load = .error .unicode →
        srtParse f
          = (match f.detectLoad with
              | .ok subs => .ok (subs.map convertEvent)
              | .error e => .error e)) ∧
      (∀ (f : SubtitleFileModel) (e : LoadError), f.utf8Load = .error e →
        assParse f = .error e) := by
  constructor
  · intro f hu
    simp [srtParse, hu]
  · intro f e hu
    simp [assParse, hu]

/-- C9 witness at a concrete file model. -/
theorem c9_encoding_retry_witness :
    assParse { utf8Load := .error (.other "bad"), detectLoad := .ok [] }
      = .error (.other "bad") :=
  c9_encoding_retry.2 { utf8Load := .error (.other "bad"), detectLoad := .ok [] }
    (.other "bad") rfl

theorem parseProgress_no_terminal (d? : Option ℚ) (line : String) :
    (parseProgress d? line).filter JobEvent.isTerminal = [] := by
  unfold parseProgress
  repeat' split
  all_goals rfl

theorem runLines_no_terminal (d? : Option ℚ) (ls : List String) :
    ((runLines d? ls).2).filter JobEvent.isTerminal = [] := by
  induction ls generalizing d? with
  | nil => rfl
  | cons l ls ih =>
    simp [runLines, List.filter_append, parseProgress_no_terminal, processLine, ih]

/-- C3: every started job delivers exactly one terminal event: a normal
run ends with a single finished signal carrying the process exit code,
and either internal failure (spawn exception or missing stderr pipe)
yields one error event followed by one terminal event with the sentinel
code -1 — never zero and never more than one terminal event. -/
theorem c3_single_terminal_event :
    ∀ (dur? : Option ℚ) (r : SpawnResult),
      ((runJob dur? r).filter JobEvent.isTerminal).length = 1 ∧
        (∀ (lines : List String) (rc : ℤ), r = .ok lines rc →
          (runJob dur? r).getLast? = some (.terminal rc)) ∧
        (∀ msg, r = .spawnFail msg →
          runJob dur? r = [.error msg, .terminal (-1)]) ∧
        (r = .noStderr →
          runJob dur? r = [.error "stderr pipe を取得できませんでした", .terminal (-1)]) := by
  intro dur? r
  refine ⟨?_, ?_, ?_, ?_⟩
  · cases r with
    | spawnFail msg => rfl
    | noStderr => rfl
    | ok lines rc =>
      show (((runLines dur? lines).2 ++ [JobEvent.terminal rc]).filter JobEvent.isTerminal).length = 1
      rw [List.filter_append, runLines_no_terminal]
      rfl
  · intro lines rc h
    subst h
    show ((runLines dur? lines).2 ++ [JobEvent.terminal rc]).getLast? = some (JobEvent.terminal rc)
    simp
  · intro msg h
    subst h
    rfl
  · intro h
    subst h
    rfl

/-- C3 witness: a simulated normal exit with code 1 ends in the terminal
event carrying 1. -/
theorem c3_single_terminal_event_witness :
    (runJob none (.ok ["x"] 1)).getLast? = some (.terminal 1) :=
  (c3_single_terminal_event none (.ok ["x"] 1)).2.1 ["x"] 1 rfl

/-- C5: while the duration is known (and positive, as every parsed
duration announcement of interest is), each line bearing a parsable
time= token emits exactly one progress event min(elapsed/duration, 1);
while no duration announcement has arrived, no progress event ever
fires; and the concrete transcript Duration: 00:01:00.00 followed by a
time=00:00:30.00 progress line yields the single ratio 0.5. -/
theorem c5_progress_semantics :
    (∀ (d : ℚ) (line : String) (sec : ℚ), 0 < d → parseTimeToken line = some sec →
        processLine (some d) line = (some d, [.progress (min (sec / d) 1)])) ∧
      (∀ ls : List String, (∀ l ∈ ls, parseDurationLine l = none) →
        (runLines none ls).2 = []) ∧
      (runLines none
          ["  Duration: 00:01:00.00, start: 0.000000, bitrate: 1411 kb/s",
            "frame=  24 fps=0.0 q=-1.0 size=    0kB time=00:00:30.00 bitrate=   0.1kbits/s"]).2
        = [.progress (1 / 2)] := by
  refine ⟨?_, ?_, ?_⟩
  · intro d line sec hd hpt
    have hd0 : d ≠ 0 := ne_of_gt hd
    simp [processLine, parseProgress, hpt, hd0]
  · intro ls hnone
    induction ls with
    | nil => rfl
    | cons l ls ih =>
      have h1 : parseDurationLine l = none := hnone l (by simp)
      have ih2 := ih (fun x hx => hnone x (by simp [hx]))
      simp [runLines, processLine, parseProgress, h1, ih2]
  · have hdur : parseDurationLine
        "  Duration: 00:01:00.00, start: 0.000000, bitrate: 1411 kb/s"
        = some (((0:ℤ):ℚ) * 3600 + ((1:ℤ):ℚ) * 60 + (((0:ℕ):ℚ) + ((0:ℕ):ℚ) / 10 ^ 2)) := rfl
    have hdur60 : parseDurationLine
        "  Duration: 00:01:00.00, start: 0.000000, bitrate: 1411 kb/s" = some 60 := by
      rw [hdur]; norm_num
    have hnt : parseTimeToken
        "  Duration: 00:01:00.00, start: 0.000000, bitrate: 1411 kb/s" = none := rfl
    have htime : parseTimeToken
        "frame=  24 fps=0.0 q=-1.0 size=    0kB time=00:00:30.00 bitrate=   0.1kbits/s"
        = some (((0:ℤ):ℚ) * 3600 + ((0:ℤ):ℚ) * 60 + (((30:ℕ):ℚ) + ((0:ℕ):ℚ) / 10 ^ 2)) := rfl
    have htime30 : parseTimeToken
        "frame=  24 fps=0.0 q=-1.0 size=    0kB time=00:00:30.00 bitrate=   0.1kbits/s"
        = some 30 := by
      rw [htime]; norm_num
    have hmin : min ((30 : ℚ) / 60) 1 = 1 / 2 := by norm_num
    simp [runLines, processLine, parseProgress, hdur60, hnt, htime30, hmin]

/-- C5 witness: a known duration of 60 seconds and a concrete progress
line emit exactly the event min(30/60, 1). -/
theorem c5_progress_semantics_witness :
    processLine (some 60)
        "frame=  24 fps=0.0 q=-1.0 size=    0kB time=00:00:30.00 bitrate=   0.1kbits/s"
      = (some 60, [.progress (min ((30 : ℚ) / 60) 1)]) :=
  c5_progress_semantics.1 60
    "frame=  24 fps=0.0 q=-1.0 size=    0kB time=00:00:30.00 bitrate=   0.1kbits/s"
    30 (by norm_num)
    (by simp [show parseTimeToken
        "frame=  24 fps=0.0 q=-1.0 size=    0kB time=00:00:30.00 bitrate=   0.1kbits/s"
        = some (((0:ℤ):ℚ) * 3600 + ((0:ℤ):ℚ) * 60 + (((30:ℕ):ℚ) + ((0:ℕ):ℚ) / 10 ^ 2))
        from rfl])

theorem digitChar_isDigit {m : ℕ} (hm : m < 10) : (digitChar m).isDigit = true := by
  interval_cases m <;> decide

theorem digitChar_toNat {m : ℕ} (hm : m < 10) : (digitChar m).toNat = 48 + m := by
  interval_cases m <;> decide

theorem natToChars_ne_nil (n : ℕ) : natToChars n ≠ [] := by
  rw [natToChars]
  split <;> simp

theorem natToChars_isDigit (n : ℕ) : ∀ c ∈ natToChars n, c.isDigit = true := by
  induction n using Nat.strong_induction_on with
  | _ n ih =>
    rw [natToChars]
    split
    · intro c hc
      rw [List.mem_singleton] at hc
      subst hc
      exact digitChar_isDigit (by omega)
    · intro c hc
      rcases List.mem_append.mp hc with h | h
      · exact ih (n / 10) (Nat.div_lt_self (by omega) (by omega)) c h
      · rw [List.mem_singleton] at h
        subst h
        exact digitChar_isDigit (Nat.mod_lt _ (by omega))

theorem natToChars_val (n : ℕ) :
    (natToChars n).foldl (fun acc c => 10 * acc + (c.toNat - 48)) 0 = n := by
  induction n using Nat.strong_induction_on with
  | _ n ih =>
    rw [natToChars]
    split
    · next h =>
      simp [List.foldl, digitChar_toNat h]
    · next h =>
      rw [List.foldl_append]
      simp only [List.foldl]
      rw [ih (n / 10) (Nat.div_lt_self (by omega) (by omega)),
        digitChar_toNat (Nat.mod_lt _ (by omega))]
      omega

theorem pyFloatDigits_natToChars (n : ℕ) : pyFloatDigits (natToChars n) = some n := by
  have hne := natToChars_ne_nil n
  have hdig := natToChars_isDigit n
  have hval := natToChars_val n
  unfold pyFloatDigits
  split
  · next heq => exact absurd heq hne
  · rw [if_pos (List.all_eq_true.mpr hdig), hval]

theorem pad2_isDigit (n : ℕ) : ∀ c ∈ pad2 n, c.isDigit = true := by
  unfold pad2
  split
  · intro c hc
    rcases List.mem_cons.mp hc with rfl | h
    · decide
    · exact natToChars_isDigit n c h
  · exact natToChars_isDigit n

theorem pyFloatDigits_pad2 (n : ℕ) : pyFloatDigits (pad2 n) = some n := by
  unfold pad2
  split
  · have hdig := natToChars_isDigit n
    have hval := natToChars_val n
    unfold pyFloatDigits
    split
    · next heq => simp at heq
    · rw [if_pos]
      · simp only [List.foldl]
        rw [show 10 * 0 + (Char.toNat '0' - 48) = 0 from by decide, hval]
      · rw [List.all_eq_true]
        intro c hc
        rcases List.mem_cons.mp hc with rfl | h
        · decide
        · exact hdig c h
  · exact pyFloatDigits_natToChars n

theorem isDigit_ne_of {c : Char} (h : c.isDigit = true) :
    c ≠ ':' ∧ c ≠ '.' ∧ c ≠ ',' := by
  refine ⟨?_, ?_, ?_⟩ <;> rintro rfl <;> simp [Char.isDigit] at h

theorem splitLimit_cons_sep (sep : Char) (n : ℕ) (rest : List Char) :
    splitLimit sep (n + 1) (sep :: rest) = [] :: splitLimit sep n rest := by
  simp [splitLimit, List.takeWhile_cons, List.dropWhile_cons]

theorem splitLimit_cons_ne {c sep : Char} (hc : c ≠ sep) (n : ℕ) (rest : List Char) :
    splitLimit sep n (c :: rest)
      = match splitLimit sep n rest with
        | [] => [[c]]
        | p :: ps => (c :: p) :: ps := by
  cases n with
  | zero => rfl
  | succ n =>
    have hb : (c != sep) = true := bne_iff_ne.mpr hc
    simp only [splitLimit, List.takeWhile_cons, List.dropWhile_cons, hb, if_true]
    cases hd : rest.dropWhile (fun x => x != sep) <;> simp [hd]

theorem splitLimit_append (a : List Char) {sep : Char} (h : ∀ c ∈ a, c ≠ sep)
    (n : ℕ) (rest : List Char) :
    splitLimit sep (n + 1) (a ++ sep :: rest) = a :: splitLimit sep n rest := by
  induction a with
  | nil => exact splitLimit_cons_sep sep n rest
  | cons x xs ih =>
    have hx : x ≠ sep := h x (by simp)
    have ih2 := ih (fun c hc => h c (by simp [hc]))
    show splitLimit sep (n + 1) (x :: (xs ++ sep :: rest)) = (x :: xs) :: splitLimit sep n rest
    rw [splitLimit_cons_ne hx, ih2]

theorem splitLimit_no_sep (a : List Char) {sep : Char} (h : ∀ c ∈ a, c ≠ sep) (n : ℕ) :
    splitLimit sep n a = [a] := by
  induction a generalizing n with
  | nil => cases n <;> rfl
  | cons x xs ih =>
    rw [splitLimit_cons_ne (h x (by simp)) n xs, ih (fun c hc => h c (by simp [hc]))]

theorem splitAllC_three {sep : Char} (a b c : List Char)
    (ha : ∀ x ∈ a, x ≠ sep) (hb : ∀ x ∈ b, x ≠ sep) (hc : ∀ x ∈ c, x ≠ sep) :
    splitAllC sep (a ++ sep :: (b ++ sep :: c)) = [a, b, c] := by
  unfold splitAllC
  rw [show (a ++ sep :: (b ++ sep :: c)).length
      = (a.length + b.length + c.length + 1) + 1 from by simp; omega]
  rw [splitLimit_append a ha, splitLimit_append b hb, splitLimit_no_sep c hc]

theorem splitAllC_two {sep : Char} (a b : List Char)
    (ha : ∀ x ∈ a, x ≠ sep) (hb : ∀ x ∈ b, x ≠ sep) :
    splitAllC sep (a ++ sep :: b) = [a, b] := by
  unfold splitAllC
  rw [show (a ++ sep :: b).length = (a.length + b.length) + 1 from by simp; omega]
  rw [splitLimit_append a ha, splitLimit_no_sep b hb]

theorem ts_floor_decomp (sec : ℚ) (hsec : 0 ≤ sec) :
    0 ≤ ⌊sec / 3600⌋ ∧ 0 ≤ ⌊pymod sec 3600 / 60⌋ ∧ 0 ≤ ⌊pymod sec 60⌋ ∧
      0 ≤ ⌊(pymod sec 60 - ((⌊pymod sec 60⌋ : ℤ) : ℚ)) * 100⌋ ∧
      (⌊sec / 3600⌋ * 60 + ⌊pymod sec 3600 / 60⌋) * 60 + ⌊pymod sec 60⌋ = ⌊sec⌋ ∧
      ⌊(pymod sec 60 - ((⌊pymod sec 60⌋ : ℤ) : ℚ)) * 100⌋ = ⌊sec * 100⌋ - 100 * ⌊sec⌋ := by
  have h1 : pymod sec 3600 = sec - 3600 * ((⌊sec / 3600⌋ : ℤ) : ℚ) := rfl
  have h2 : pymod sec 60 = sec - 60 * ((⌊sec / 60⌋ : ℤ) : ℚ) := rfl
  have hM : ⌊pymod sec 3600 / 60⌋ = ⌊sec / 60⌋ - 60 * ⌊sec / 3600⌋ := by
    rw [h1, show (sec - 3600 * ((⌊sec / 3600⌋ : ℤ) : ℚ)) / 60
        = sec / 60 - ((60 * ⌊sec / 3600⌋ : ℤ) : ℚ) from by push_cast; ring,
      Int.floor_sub_int]
  have hS : ⌊pymod sec 60⌋ = ⌊sec⌋ - 60 * ⌊sec / 60⌋ := by
    rw [h2, show sec - 60 * ((⌊sec / 60⌋ : ℤ) : ℚ)
        = sec - ((60 * ⌊sec / 60⌋ : ℤ) : ℚ) from by push_cast; ring,
      Int.floor_sub_int]
  have hfH : ((⌊sec / 3600⌋ : ℤ) : ℚ) ≤ sec / 3600 := Int.floor_le _
  have hfK : ((⌊sec / 60⌋ : ℤ) : ℚ) ≤ sec / 60 := Int.floor_le _
  have hfS : ((⌊sec⌋ : ℤ) : ℚ) ≤ sec := Int.floor_le _
  have hH0 : 0 ≤ ⌊sec / 3600⌋ := Int.floor_nonneg.mpr (by positivity)
  have hKH : 60 * ⌊sec / 3600⌋ ≤ ⌊sec / 60⌋ := by
    apply Int.le_floor.mpr
    push_cast
    linarith
  have hS0 : 0 ≤ ⌊pymod sec 60⌋ := by
    apply Int.floor_nonneg.mpr
    rw [h2]
    linarith
  have hfrac : ((⌊pymod sec 60⌋ : ℤ) : ℚ) ≤ pymod sec 60 := Int.floor_le _
  have hCS : ⌊(pymod sec 60 - ((⌊pymod sec 60⌋ : ℤ) : ℚ)) * 100⌋
      = ⌊sec * 100⌋ - 100 * ⌊sec⌋ := by
    rw [show (pymod sec 60 - ((⌊pymod sec 60⌋ : ℤ) : ℚ)) * 100
        = sec * 100 - ((100 * ⌊sec⌋ : ℤ) : ℚ) from by rw [hS, h2]; push_cast; ring,
      Int.floor_sub_int]
  have hCS0 : 0 ≤ ⌊(pymod sec 60 - ((⌊pymod sec 60⌋ : ℤ) : ℚ)) * 100⌋ := by
    apply Int.floor_nonneg.mpr
    nlinarith
  refine ⟨hH0, by omega, hS0, hCS0, by omega, hCS⟩

theorem parseTimestampMs_parts (A B C D : List Char) (a b c d : ℕ)
    (hA : pyFloatDigits A = some a) (hB : pyFloatDigits B = some b)
    (hC : pyFloatDigits C = some c) (hD : pyFloatDigits D = some d)
    (hdA : ∀ x ∈ A, x.isDigit = true) (hdB : ∀ x ∈ B, x.isDigit = true)
    (hdC : ∀ x ∈ C, x.isDigit = true) (hdD : ∀ x ∈ D, x.isDigit = true) :
    parseTimestampMs (A ++ ':' :: (B ++ ':' :: (C ++ '.' :: D)))
      = some ((((a : ℤ) * 60 + (b : ℤ)) * 60 + (c : ℤ)) * 1000 + (d : ℤ) * 10) := by
  have hA' : ∀ x ∈ A, x ≠ ':' := fun x hx => (isDigit_ne_of (hdA x hx)).1
  have hB' : ∀ x ∈ B, x ≠ ':' := fun x hx => (isDigit_ne_of (hdB x hx)).1
  have hCD' : ∀ x ∈ C ++ '.' :: D, x ≠ ':' := by
    intro x hx
    rcases List.mem_append.mp hx with h | h
    · exact (isDigit_ne_of (hdC x h)).1
    · rcases List.mem_cons.mp h with rfl | h
      · decide
      · exact (isDigit_ne_of (hdD x h)).1
  have hC' : ∀ x ∈ C, x ≠ '.' := fun x hx => (isDigit_ne_of (hdC x hx)).2.1
  have hD' : ∀ x ∈ D, x ≠ '.' := fun x hx => (isDigit_ne_of (hdD x hx)).2.1
  simp only [parseTimestampMs, splitAllC_three A B (C ++ '.' :: D) hA' hB' hCD',
    splitAllC_two C D hC' hD', hA, hB, hC, hD]

theorem tsChars_eq (sec : ℚ) (hsec : 0 ≤ sec) :
    tsChars sec
      = natToChars (⌊sec / 3600⌋).toNat
        ++ ':' :: (pad2 (⌊pymod sec 3600 / 60⌋).toNat
        ++ ':' :: (pad2 (⌊pymod sec 60⌋).toNat
        ++ '.' :: pad2 (⌊(pymod sec 60 - ((⌊pymod sec 60⌋ : ℤ) : ℚ)) * 100⌋).toNat)) := by
  have hH0 : 0 ≤ ⌊sec / 3600⌋ := Int.floor_nonneg.mpr (by positivity)
  simp only [tsChars]
  rw [show intToChars ⌊sec / 3600⌋ = natToChars (⌊sec / 3600⌋).toNat from by
    unfold intToChars; rw [if_neg (by omega)]]
  simp [List.append_assoc]

theorem tsChars_no_comma (sec : ℚ) (hsec : 0 ≤ sec) : ∀ c ∈ tsChars sec, c ≠ ',' := by
  rw [tsChars_eq sec hsec]
  intro c hc
  simp only [List.mem_append, List.mem_cons] at hc
  rcases hc with h | rfl | h | rfl | h | rfl | h
  · exact (isDigit_ne_of (natToChars_isDigit _ c h)).2.2
  · decide
  · exact (isDigit_ne_of (pad2_isDigit _ c h)).2.2
  · decide
  · exact (isDigit_ne_of (pad2_isDigit _ c h)).2.2
  · decide
  · exact (isDigit_ne_of (pad2_isDigit _ c h)).2.2

theorem parseTimestampMs_tsChars (sec : ℚ) (hsec : 0 ≤ sec) :
    parseTimestampMs (tsChars sec) = some (⌊sec * 100⌋ * 10) := by
  obtain ⟨hH0, hM0, hS0, hC0, hsum, hcs⟩ := ts_floor_decomp sec hsec
  rw [tsChars_eq sec hsec, parseTimestampMs_parts _ _ _ _ _ _ _ _
    (pyFloatDigits_natToChars _) (pyFloatDigits_pad2 _) (pyFloatDigits_pad2 _)
    (pyFloatDigits_pad2 _) (natToChars_isDigit _) (pad2_isDigit _) (pad2_isDigit _)
    (pad2_isDigit _)]
  congr 1
  rw [Int.toNat_of_nonneg hH0, Int.toNat_of_nonneg hM0, Int.toNat_of_nonneg hS0,
    Int.toNat_of_nonneg hC0]
  omega

theorem dialogue_split (t1 t2 text : List Char)
    (h1 : ∀ c ∈ t1, c ≠ ',') (h2 : ∀ c ∈ t2, c ≠ ',') :
    splitLimit ',' 9
        (['0', ','] ++ (t1 ++ ',' :: (t2 ++ (",Default,,0,0,0,,".data ++ text))))
      = [['0'], t1, t2, "Default".data, [], ['0'], ['0'], ['0'], [], text] := by
  have e1 : ['0', ','] ++ (t1 ++ ',' :: (t2 ++ (",Default,,0,0,0,,".data ++ text)))
      = ['0'] ++ ',' :: (t1 ++ ',' :: (t2 ++ ',' :: ("Default".data
        ++ ',' :: ([] ++ ',' :: (['0'] ++ ',' :: (['0'] ++ ',' :: (['0']
        ++ ',' :: ([] ++ ',' :: text)))))))) := rfl
  rw [e1, splitLimit_append ['0'] (by decide), splitLimit_append t1 h1,
    splitLimit_append t2 h2, splitLimit_append "Default".data (by decide),
    splitLimit_append [] (by decide), splitLimit_append ['0'] (by decide),
    splitLimit_append ['0'] (by decide), splitLimit_append ['0'] (by decide),
    splitLimit_append [] (by decide)]
  rfl

theorem parseDialogue_toAss (l : SubtitleLine) (hs : 0 ≤ l.start) (he : 0 ≤ l.stop) :
    parseDialogueLine (toAssDialogue l)
      = some { start := ⌊l.start * 100⌋ * 10, stop := ⌊l.stop * 100⌋ * 10,
               text := l.text } := by
  have e0 : toAssDialogue l
      = "Dialogue: 0,".data ++ (tsChars l.start ++ ',' :: (tsChars l.stop
        ++ (",Default,,0,0,0,,".data ++ l.text.data))) := by
    unfold toAssDialogue
    simp [List.append_assoc]
  rw [e0]
  unfold parseDialogueLine
  rw [List.take_append_of_le_length (by decide), List.drop_append_of_le_length (by decide),
    if_pos (by decide), show ("Dialogue: 0,".data.drop 10) = ['0', ','] from by decide,
    dialogue_split (tsChars l.start) (tsChars l.stop) l.text.data
      (tsChars_no_comma l.start hs) (tsChars_no_comma l.stop he)]
  simp only [parseTimestampMs_tsChars l.start hs, parseTimestampMs_tsChars l.stop he]

theorem styleLine_none (rest : List Char) :
    parseDialogueLine (['S', 't', 'y', 'l', 'e', ':', ' ', 'D', 'e', 'f', 'a', 'u',
      'l', 't', ','] ++ rest) = none := by
  unfold parseDialogueLine
  rw [List.take_append_of_le_length (by decide), if_neg (by decide)]

theorem filterMap_cons_none {α β : Type} (f : α → Option β) {a : α} {as : List α}
    (h : f a = none) :
    List.filterMap f (a :: as) = List.filterMap f as := by
  simp [List.filterMap_cons, h]

set_option maxRecDepth 8192 in
theorem headerLines_no_dialogue (cfg : FontConfig) :
    (headerLines cfg).filterMap parseDialogueLine = [] := by
  simp only [headerLines]
  rw [filterMap_cons_none _ (by decide), filterMap_cons_none _ (by decide),
    filterMap_cons_none _ (by decide), filterMap_cons_none _ (by decide),
    filterMap_cons_none _ (by decide), filterMap_cons_none _ (by decide),
    filterMap_cons_none _ (by decide), filterMap_cons_none _ (by decide),
    filterMap_cons_none _ (by decide), filterMap_cons_none _ (styleLine_none _),
    filterMap_cons_none _ (by decide), filterMap_cons_none _ (by decide),
    filterMap_cons_none _ (by decide), List.filterMap_nil]

theorem pyReplaceNL_id {cs : List Char} (h : '\n' ∉ cs) : pyReplaceNL cs = cs := by
  induction cs with
  | nil => rfl
  | cons c rest ih =>
    have hc : c ≠ '\n' := fun hcc => h (hcc ▸ List.mem_cons_self c rest)
    have hr : '\n' ∉ rest := fun hm => h (List.mem_cons_of_mem c hm)
    simp [pyReplaceNL, hc] at ih ⊢
    exact ih hr

theorem convertEvent_trunc (q r : ℚ) (text : String) (h : '\n' ∉ text.data) :
    convertEvent { start := ⌊q * 100⌋ * 10, stop := ⌊r * 100⌋ * 10, text := text }
      = { start := centitrunc q, stop := centitrunc r, text := text } := by
  simp only [convertEvent, centitrunc, pyReplaceNL_id h, SubtitleLine.mk.injEq]
  refine ⟨by push_cast; ring, by push_cast; ring, trivial⟩

theorem centitrunc_bound (q : ℚ) : |centitrunc q - q| ≤ 1 / 100 := by
  unfold centitrunc
  rw [abs_le]
  have h1 : ((⌊q * 100⌋ : ℤ) : ℚ) ≤ q * 100 := Int.floor_le _
  have h2 : q * 100 - 1 < ((⌊q * 100⌋ : ℤ) : ℚ) := Int.sub_one_lt_floor _
  constructor <;> linarith

theorem filterMap_dialogues (lines : List SubtitleLine)
    (h : ∀ l ∈ lines, 0 ≤ l.start ∧ 0 ≤ l.stop ∧ '\n' ∉ l.text.data) :
    (lines.map toAssDialogue).filterMap parseDialogueLine
      = lines.map (fun (l : SubtitleLine) =>
          ({ start := (⌊l.start * 100⌋ * 10 : ℤ), stop := (⌊l.stop * 100⌋ * 10 : ℤ),
             text := l.text } : SSAEvent)) := by
  induction lines with
  | nil => rfl
  | cons l rest ih =>
    obtain ⟨hs, he, -⟩ := h l (by simp)
    have ih2 := ih (fun x hx => h x (by simp [hx]))
    simp only [List.map_cons, List.filterMap_cons, parseDialogue_toAss l hs he, ih2]

/-- C4: serializing canonical lines with nonnegative times and
newline-free text to the styled document and re-parsing the document
with the advanced-styled-text parser returns the same number of lines,
each with start and stop truncated to whole centiseconds (hence within
one centisecond of the original) and text unchanged. -/
theorem c4_round_trip :
    ∀ (cfg : FontConfig) (lines : List SubtitleLine),
      (∀ l ∈ lines, 0 ≤ l.start ∧ 0 ≤ l.stop ∧ '\n' ∉ l.text.data) →
      assParseDoc (writeTempAssLines cfg lines)
          = lines.map (fun l =>
              { start := centitrunc l.start, stop := centitrunc l.stop,
                text := l.text }) ∧
        (assParseDoc (writeTempAssLines cfg lines)).length = lines.length ∧
        ∀ q : ℚ, |centitrunc q - q| ≤ 1 / 100 := by
  intro cfg lines h
  have hmain : assParseDoc (writeTempAssLines cfg lines)
      = lines.map (fun l =>
          { start := centitrunc l.start, stop := centitrunc l.stop, text := l.text }) := by
    unfold assParseDoc writeTempAssLines
    rw [List.filterMap_append, headerLines_no_dialogue, filterMap_dialogues lines h,
      List.nil_append, List.map_map]
    apply List.map_congr_left
    intro l hl
    obtain ⟨hs, he, hnl⟩ := h l hl
    exact convertEvent_trunc l.start l.stop l.text hnl
  refine ⟨hmain, by rw [hmain]; simp, centitrunc_bound⟩

/-- C4 witness at a concrete line list. -/
theorem c4_round_trip_witness :
    assParseDoc (writeTempAssLines ⟨none, none, none, none, none, none, none, none⟩
        [{ start := 0, stop := 2, text := "Hi" }])
      = [{ start := centitrunc 0, stop := centitrunc 2, text := "Hi" }] :=
  (c4_round_trip ⟨none, none, none, none, none, none, none, none⟩
    [{ start := 0, stop := 2, text := "Hi" }]
    (by intro l hl; simp at hl; subst hl; refine ⟨le_refl 0, by norm_num, by decide⟩)).1
